import Mathlib

/-!
Verification of the rule-based game category classifier
(`get_game_categories` in `categorize_games.py`).

The classifier lowers the title, seeds a working set from
`current_category`, runs a fixed sequence of keyword rules that add
(and occasionally remove) labels, resolves the `2-player` versus
`multiplayer` contradiction, falls back to `arcade` when the set is
empty, and returns the set as an ascending-sorted list.

The Python `set` of labels is modelled as a duplicate-free
`List String` with explicit `add` / `update` / `discard` operations;
each `if` block of the source becomes one `step` function, and the
pipeline is their composition in source order.
-/

namespace CategorizeGames

/-- Python `title.lower()`: every character mapped to lower case
(`Char.toLower`, which agrees with Python on the ASCII titles and
keywords involved). -/
def pyLower (s : String) : String := ⟨s.data.map Char.toLower⟩

/-- Boolean test: the first list is a prefix of the second. -/
def isPrefixList : List Char → List Char → Bool
  | [], _ => true
  | _ :: _, [] => false
  | a :: as, b :: bs => a == b && isPrefixList as bs

/-- Boolean test: `needle` occurs contiguously inside the second list.
This is the Python substring operator `needle in hay` on the character
level. -/
def isSubstring (needle : List Char) : List Char → Bool
  | [] => needle.isEmpty
  | c :: t => isPrefixList needle (c :: t) || isSubstring needle t

/-- Python `needle in hay` for strings. -/
def strContains (hay needle : String) : Bool := isSubstring needle.data hay.data

/-- Python `any(word in t for word in ws)`. -/
def containsAny (t : String) (ws : List String) : Bool :=
  ws.any (fun w => strContains t w)

/-! ### The Python `set`, modelled as a duplicate-free list -/

/-- Python `s.add(x)`. -/
def setAdd (s : List String) (x : String) : List String :=
  if x ∈ s then s else s ++ [x]

/-- Python `s.update(ws)`. -/
def setUpdate (s : List String) (ws : List String) : List String :=
  ws.foldl setAdd s

/-- Python `s.discard(x)`. -/
def setDiscard (s : List String) (x : String) : List String :=
  s.filter (fun y => y ≠ x)

/-! ### The guard of each rule (each mirrors one `if` of the source) -/

/-- Guard of the 2-player board-game rule (line 20). -/
def condBoard (t : String) : Bool :=
  containsAny t ["chess", "checkers", "go ", "backgammon"]

/-- Guard of the Connect-Four rule (line 24). -/
def condConnectFour (t : String) : Bool :=
  strContains t "connect four" || strContains t "connect-four"

/-- Guard of the tic-tac-toe rule (line 29). -/
def condTicTacToe (t : String) : Bool :=
  strContains t "tic" && strContains t "tac" && strContains t "toe"

/-- Guard of the racing rule (line 34). -/
def condRacing (t : String) : Bool :=
  containsAny t ["racing", "race", "circuit", "speed", "drift"]

/-- Guard of the puzzle rule (line 38). -/
def condPuzzle (t : String) : Bool :=
  containsAny t ["puzzle", "match", "tetris", "blocks", "crystal", "gem", "swap"]

/-- Guard of the card-game rule (line 42). -/
def condCards (t : String) : Bool :=
  containsAny t ["poker", "cards", "solitaire", "blackjack"]

/-- Guard of the arcade rule (line 46). -/
def condArcade (t : String) : Bool :=
  containsAny t ["blaster", "asteroid", "space", "shooter", "invader", "breakout", "pong"]

/-- Guard of the tower-defense rule (line 50). -/
def condTower (t : String) : Bool :=
  containsAny t ["tower", "defense", "defend", "turret"]

/-- Guard of the AI-themed rule (line 54). -/
def condAI (t : String) : Bool :=
  containsAny t ["ai ", "algorithm", "neural", "matrix", "nexus", "quantum"]

/-- Guard of the multiplayer rule (line 62). -/
def condMultiplayer (t : String) : Bool :=
  containsAny t ["network", "online", "multi", "battle", "versus", "pvp"]

/-- Guard of the 2-player-indicator rule (line 68). -/
def condTwoPlayer (t : String) : Bool :=
  containsAny t ["vs ", "versus", "battle", "duel"] && !(strContains t "network")

/-- Guard of the adventure rule (line 72). -/
def condAdventure (t : String) : Bool :=
  containsAny t ["quest", "adventure", "exploration", "journey"]

/-- Guard of the simulation rule (line 76). -/
def condSimulation (t : String) : Bool :=
  containsAny t ["simulator", "tycoon", "management", "builder"]

/-- Guard of the classic rule (line 80). -/
def condClassic (t : String) : Bool :=
  containsAny t ["classic", "retro", "vintage", "old school"]

/-- Keyword guard of the contradiction-resolution block (line 86). -/
def condResolve (t : String) : Bool :=
  containsAny t ["chess", "checkers", "connect four", "tic tac toe"]

/-! ### The pipeline steps, in source order -/

/-- Lines 16-17: seed with `current_category` when non-empty. -/
def stepSeed (current_category : String) (s : List String) : List String :=
  if current_category ≠ "" then setAdd s current_category else s

/-- Lines 20-21: 2-player board games. -/
def stepBoard (t : String) (s : List String) : List String :=
  if condBoard t then setUpdate s ["strategy", "2-player", "classic"] else s

/-- Lines 24-26: Connect-Four variants (also discards `simulation`). -/
def stepConnectFour (t : String) (s : List String) : List String :=
  if condConnectFour t then
    setDiscard (setUpdate s ["puzzle", "2-player", "strategy"]) "simulation"
  else s

/-- Lines 29-31: tic-tac-toe variants (also discards `simulation`). -/
def stepTicTacToe (t : String) (s : List String) : List String :=
  if condTicTacToe t then
    setDiscard (setUpdate s ["puzzle", "2-player", "classic"]) "simulation"
  else s

/-- Lines 34-35: racing games. -/
def stepRacing (t : String) (s : List String) : List String :=
  if condRacing t then setUpdate s ["racing", "arcade"] else s

/-- Lines 38-39: puzzle games. -/
def stepPuzzle (t : String) (s : List String) : List String :=
  if condPuzzle t then setAdd s "puzzle" else s

/-- Lines 42-43: card games. -/
def stepCards (t : String) (s : List String) : List String :=
  if condCards t then setUpdate s ["classic", "2-player"] else s

/-- Lines 46-47: arcade games. -/
def stepArcade (t : String) (s : List String) : List String :=
  if condArcade t then setUpdate s ["arcade", "classic"] else s

/-- Lines 50-51: tower defense. -/
def stepTower (t : String) (s : List String) : List String :=
  if condTower t then setUpdate s ["defense", "strategy"] else s

/-- Lines 54-59: AI-specific games. -/
def stepAI (t : String) (s : List String) : List String :=
  if condAI t then
    if "ai-exclusive" ∈ s then setUpdate s ["ai-exclusive", "strategy"]
    else setAdd s "strategy"
  else s

/-- Lines 62-65: multiplayer indicators (`multiplayer` is added first,
then `4-player` when the title also contains `multi`). -/
def stepMultiplayer (t : String) (s : List String) : List String :=
  if condMultiplayer t then
    if strContains t "multi" then setAdd (setAdd s "multiplayer") "4-player"
    else setAdd s "multiplayer"
  else s

/-- Lines 68-69: 2-player indicators. -/
def stepTwoPlayer (t : String) (s : List String) : List String :=
  if condTwoPlayer t then setAdd s "2-player" else s

/-- Lines 72-73: adventure / RPG games. -/
def stepAdventure (t : String) (s : List String) : List String :=
  if condAdventure t then setAdd s "adventure" else s

/-- Lines 76-77: simulation games. -/
def stepSimulation (t : String) (s : List String) : List String :=
  if condSimulation t then setAdd s "simulation" else s

/-- Lines 80-81: classic games. -/
def stepClassic (t : String) (s : List String) : List String :=
  if condClassic t then setAdd s "classic" else s

/-- Lines 84-87: contradiction resolution (discards `multiplayer`). -/
def stepResolve (t : String) (s : List String) : List String :=
  if "2-player" ∈ s ∧ "multiplayer" ∈ s then
    if condResolve t then setDiscard s "multiplayer" else s
  else s

/-- Lines 90-91: fallback to `arcade` on an empty set. -/
def stepFallback (s : List String) : List String :=
  if s = [] then ["arcade"] else s

/-- The fourteen keyword rules (lines 20-81) applied in source order to
the working set `s`, `t` being the lowered title. -/
def runRules (t : String) (s : List String) : List String :=
  stepClassic t (stepSimulation t (stepAdventure t (stepTwoPlayer t
    (stepMultiplayer t (stepAI t (stepTower t (stepArcade t (stepCards t
    (stepPuzzle t (stepRacing t (stepTicTacToe t (stepConnectFour t
    (stepBoard t s)))))))))))))

/-- The working set after the keyword rules (lines 12-81), before the
contradiction-resolution and fallback blocks. -/
def categoriesBeforeResolve (title current_category : String) : List String :=
  runRules (pyLower title) (stepSeed current_category [])

/-- The final working set (after lines 84-91). -/
def categoriesFinal (title current_category : String) : List String :=
  stepFallback (stepResolve (pyLower title)
    (categoriesBeforeResolve title current_category))

/-- Decidability of `a ≤ b` on strings through the character lists (the
iterator-based decision procedure of the library is replaced by an
equivalent one that the kernel can evaluate). -/
def strDecLE : DecidableRel (fun a b : String => a ≤ b) := fun a b =>
  decidable_of_iff (¬ b.toList < a.toList) (not_congr String.lt_iff_toList_lt).symm

/-- Python `sorted(list(s))` for a list of strings: ascending
lexicographic order. -/
def pySorted (l : List String) : List String :=
  @List.insertionSort String (fun a b => a ≤ b) strDecLE l

/-- Line 10-93: the classifier.  `genre` and `description` are accepted
but never inspected, as in the source. -/
def get_game_categories (title current_category genre description : String) :
    List String :=
  pySorted (categoriesFinal title current_category)

/-! ### Lemmas about the set operations -/

lemma setUpdate_nil (s : List String) : setUpdate s [] = s := rfl

lemma setUpdate_cons (s : List String) (w : String) (ws : List String) :
    setUpdate s (w :: ws) = setUpdate (setAdd s w) ws := rfl

lemma mem_setAdd_of_mem {y x : String} {s : List String} (h : y ∈ s) :
    y ∈ setAdd s x := by
  unfold setAdd; split
  · exact h
  · exact List.mem_append_left _ h

lemma self_mem_setAdd (s : List String) (x : String) : x ∈ setAdd s x := by
  unfold setAdd; split
  · assumption
  · exact List.mem_append_right _ (List.mem_singleton_self x)

lemma mem_setAdd {y x : String} {s : List String} (h : y ∈ setAdd s x) :
    y ∈ s ∨ y = x := by
  unfold setAdd at h; split at h
  · exact .inl h
  · rcases List.mem_append.1 h with h | h
    · exact .inl h
    · exact .inr (List.mem_singleton.1 h)

lemma nodup_setAdd {s : List String} (h : s.Nodup) (x : String) :
    (setAdd s x).Nodup := by
  unfold setAdd; split
  · exact h
  · exact h.append (List.nodup_singleton x) (List.disjoint_singleton.2 (by assumption))

lemma mem_setUpdate_of_mem :
    ∀ (ws : List String) {s : List String} {y : String}, y ∈ s → y ∈ setUpdate s ws
  | [], _, _, h => h
  | _ :: ws, _, _, h => mem_setUpdate_of_mem ws (mem_setAdd_of_mem h)

lemma mem_setUpdate_of_mem_arg :
    ∀ (ws : List String) {s : List String} {y : String}, y ∈ ws → y ∈ setUpdate s ws
  | w :: ws, s, y, h => by
    rcases List.mem_cons.1 h with rfl | h
    · exact mem_setUpdate_of_mem ws (self_mem_setAdd s y)
    · exact mem_setUpdate_of_mem_arg ws h

lemma mem_setUpdate :
    ∀ (ws : List String) {s : List String} {y : String},
      y ∈ setUpdate s ws → y ∈ s ∨ y ∈ ws
  | [], _, _, h => .inl h
  | w :: ws, s, y, h => by
    rcases mem_setUpdate ws h with h | h
    · rcases mem_setAdd h with h | rfl
      · exact .inl h
      · exact .inr (List.mem_cons_self _ _)
    · exact .inr (List.mem_cons_of_mem _ h)

lemma nodup_setUpdate :
    ∀ (ws : List String) {s : List String}, s.Nodup → (setUpdate s ws).Nodup
  | [], _, h => h
  | w :: ws, _, h => nodup_setUpdate ws (nodup_setAdd h w)

lemma mem_setDiscard_of_mem {y x : String} {s : List String}
    (h : y ∈ s) (hne : y ≠ x) : y ∈ setDiscard s x := by
  simp only [setDiscard, List.mem_filter, decide_eq_true_eq]
  exact ⟨h, hne⟩

lemma not_mem_setDiscard (s : List String) (x : String) : x ∉ setDiscard s x := by
  simp [setDiscard, List.mem_filter]

lemma mem_setDiscard {y x : String} {s : List String}
    (h : y ∈ setDiscard s x) : y ∈ s :=
  (List.mem_filter.1 h).1

lemma nodup_setDiscard {s : List String} (h : s.Nodup) (x : String) :
    (setDiscard s x).Nodup :=
  h.filter _

/-! ### Per-step lemmas: preservation, label bounds, duplicate-freeness -/

/-- The eleven labels the keyword rules can introduce (every label any
rule adds, other than the seed; the guarded `ai-exclusive` insertion is
excluded because it only re-adds an element already present). -/
def fixedLabels : List String :=
  ["2-player", "4-player", "adventure", "arcade", "classic", "defense",
   "multiplayer", "puzzle", "racing", "simulation", "strategy"]

lemma mem_fixed_of_sub {y : String} {ys : List String}
    (hsub : ∀ z ∈ ys, z ∈ fixedLabels) (h : y ∈ ys) : y ∈ fixedLabels :=
  hsub y h

lemma self_mem_stepSeed {c : String} {s : List String} (h : c ≠ "") :
    c ∈ stepSeed c s := by
  unfold stepSeed; rw [if_pos h]; exact self_mem_setAdd s c

lemma mem_stepSeed {c y : String} {s : List String} (h : y ∈ s) :
    y ∈ stepSeed c s := by
  unfold stepSeed; split
  · exact mem_setAdd_of_mem h
  · exact h

lemma mem_of_stepSeed {c y : String} {s : List String} (h : y ∈ stepSeed c s) :
    y ∈ s ∨ y = c := by
  unfold stepSeed at h; split at h
  · exact mem_setAdd h
  · exact .inl h

lemma nodup_stepSeed {c : String} {s : List String} (h : s.Nodup) :
    (stepSeed c s).Nodup := by
  unfold stepSeed; split
  · exact nodup_setAdd h _
  · exact h

lemma mem_stepBoard {t y : String} {s : List String} (h : y ∈ s) :
    y ∈ stepBoard t s := by
  unfold stepBoard; split
  · exact mem_setUpdate_of_mem _ h
  · exact h

lemma bound_stepBoard {t y : String} {s : List String} (h : y ∈ stepBoard t s) :
    y ∈ s ∨ y ∈ fixedLabels := by
  unfold stepBoard at h; split at h
  · exact (mem_setUpdate _ h).imp_right (mem_fixed_of_sub (by decide))
  · exact .inl h

lemma nodup_stepBoard {t : String} {s : List String} (h : s.Nodup) :
    (stepBoard t s).Nodup := by
  unfold stepBoard; split
  · exact nodup_setUpdate _ h
  · exact h

lemma mem_stepConnectFour {t y : String} {s : List String}
    (h : y ∈ s) (hne : y ≠ "simulation") : y ∈ stepConnectFour t s := by
  unfold stepConnectFour; split
  · exact mem_setDiscard_of_mem (mem_setUpdate_of_mem _ h) hne
  · exact h

lemma bound_stepConnectFour {t y : String} {s : List String}
    (h : y ∈ stepConnectFour t s) : y ∈ s ∨ y ∈ fixedLabels := by
  unfold stepConnectFour at h; split at h
  · exact (mem_setUpdate _ (mem_setDiscard h)).imp_right (mem_fixed_of_sub (by decide))
  · exact .inl h

lemma nodup_stepConnectFour {t : String} {s : List String} (h : s.Nodup) :
    (stepConnectFour t s).Nodup := by
  unfold stepConnectFour; split
  · exact nodup_setDiscard (nodup_setUpdate _ h) _
  · exact h

lemma mem_stepTicTacToe {t y : String} {s : List String}
    (h : y ∈ s) (hne : y ≠ "simulation") : y ∈ stepTicTacToe t s := by
  unfold stepTicTacToe; split
  · exact mem_setDiscard_of_mem (mem_setUpdate_of_mem _ h) hne
  · exact h

lemma bound_stepTicTacToe {t y : String} {s : List String}
    (h : y ∈ stepTicTacToe t s) : y ∈ s ∨ y ∈ fixedLabels := by
  unfold stepTicTacToe at h; split at h
  · exact (mem_setUpdate _ (mem_setDiscard h)).imp_right (mem_fixed_of_sub (by decide))
  · exact .inl h

lemma nodup_stepTicTacToe {t : String} {s : List String} (h : s.Nodup) :
    (stepTicTacToe t s).Nodup := by
  unfold stepTicTacToe; split
  · exact nodup_setDiscard (nodup_setUpdate _ h) _
  · exact h

lemma mem_stepRacing {t y : String} {s : List String} (h : y ∈ s) :
    y ∈ stepRacing t s := by
  unfold stepRacing; split
  · exact mem_setUpdate_of_mem _ h
  · exact h

lemma bound_stepRacing {t y : String} {s : List String} (h : y ∈ stepRacing t s) :
    y ∈ s ∨ y ∈ fixedLabels := by
  unfold stepRacing at h; split at h
  · exact (mem_setUpdate _ h).imp_right (mem_fixed_of_sub (by decide))
  · exact .inl h

lemma nodup_stepRacing {t : String} {s : List String} (h : s.Nodup) :
    (stepRacing t s).Nodup := by
  unfold stepRacing; split
  · exact nodup_setUpdate _ h
  · exact h

lemma mem_stepPuzzle {t y : String} {s : List String} (h : y ∈ s) :
    y ∈ stepPuzzle t s := by
  unfold stepPuzzle; split
  · exact mem_setAdd_of_mem h
  · exact h

lemma bound_stepPuzzle {t y : String} {s : List String} (h : y ∈ stepPuzzle t s) :
    y ∈ s ∨ y ∈ fixedLabels := by
  unfold stepPuzzle at h; split at h
  · exact (mem_setAdd h).imp_right (fun he => by subst he; decide)
  · exact .inl h

lemma nodup_stepPuzzle {t : String} {s : List String} (h : s.Nodup) :
    (stepPuzzle t s).Nodup := by
  unfold stepPuzzle; split
  · exact nodup_setAdd h _
  · exact h

lemma mem_stepCards {t y : String} {s : List String} (h : y ∈ s) :
    y ∈ stepCards t s := by
  unfold stepCards; split
  · exact mem_setUpdate_of_mem _ h
  · exact h

lemma bound_stepCards {t y : String} {s : List String} (h : y ∈ stepCards t s) :
    y ∈ s ∨ y ∈ fixedLabels := by
  unfold stepCards at h; split at h
  · exact (mem_setUpdate _ h).imp_right (mem_fixed_of_sub (by decide))
  · exact .inl h

lemma nodup_stepCards {t : String} {s : List String} (h : s.Nodup) :
    (stepCards t s).Nodup := by
  unfold stepCards; split
  · exact nodup_setUpdate _ h
  · exact h

lemma mem_stepArcade {t y : String} {s : List String} (h : y ∈ s) :
    y ∈ stepArcade t s := by
  unfold stepArcade; split
  · exact mem_setUpdate_of_mem _ h
  · exact h

lemma bound_stepArcade {t y : String} {s : List String} (h : y ∈ stepArcade t s) :
    y ∈ s ∨ y ∈ fixedLabels := by
  unfold stepArcade at h; split at h
  · exact (mem_setUpdate _ h).imp_right (mem_fixed_of_sub (by decide))
  · exact .inl h

lemma nodup_stepArcade {t : String} {s : List String} (h : s.Nodup) :
    (stepArcade t s).Nodup := by
  unfold stepArcade; split
  · exact nodup_setUpdate _ h
  · exact h

lemma mem_stepTower {t y : String} {s : List String} (h : y ∈ s) :
    y ∈ stepTower t s := by
  unfold stepTower; split
  · exact mem_setUpdate_of_mem _ h
  · exact h

lemma bound_stepTower {t y : String} {s : List String} (h : y ∈ stepTower t s) :
    y ∈ s ∨ y ∈ fixedLabels := by
  unfold stepTower at h; split at h
  · exact (mem_setUpdate _ h).imp_right (mem_fixed_of_sub (by decide))
  · exact .inl h

lemma nodup_stepTower {t : String} {s : List String} (h : s.Nodup) :
    (stepTower t s).Nodup := by
  unfold stepTower; split
  · exact nodup_setUpdate _ h
  · exact h

lemma mem_stepAI {t y : String} {s : List String} (h : y ∈ s) :
    y ∈ stepAI t s := by
  unfold stepAI; split
  · split
    · exact mem_setUpdate_of_mem _ h
    · exact mem_setAdd_of_mem h
  · exact h

lemma mem_of_stepAI {t y : String} {s : List String} (h : y ∈ stepAI t s) :
    y ∈ s ∨ y = "strategy" := by
  unfold stepAI at h; split at h
  · split at h
    · rename_i hmem
      rcases mem_setUpdate _ h with h | h
      · exact .inl h
      · rcases List.mem_cons.1 h with rfl | h
        · exact .inl hmem
        · exact .inr (List.mem_singleton.1 h)
    · exact mem_setAdd h
  · exact .inl h

lemma bound_stepAI {t y : String} {s : List String} (h : y ∈ stepAI t s) :
    y ∈ s ∨ y ∈ fixedLabels :=
  (mem_of_stepAI h).imp_right (fun he => by subst he; decide)

lemma nodup_stepAI {t : String} {s : List String} (h : s.Nodup) :
    (stepAI t s).Nodup := by
  unfold stepAI; split
  · split
    · exact nodup_setUpdate _ h
    · exact nodup_setAdd h _
  · exact h

lemma mem_stepMultiplayer {t y : String} {s : List String} (h : y ∈ s) :
    y ∈ stepMultiplayer t s := by
  unfold stepMultiplayer; split
  · split
    · exact mem_setAdd_of_mem (mem_setAdd_of_mem h)
    · exact mem_setAdd_of_mem h
  · exact h

lemma bound_stepMultiplayer {t y : String} {s : List String}
    (h : y ∈ stepMultiplayer t s) : y ∈ s ∨ y ∈ fixedLabels := by
  unfold stepMultiplayer at h; split at h
  · split at h
    · rcases mem_setAdd h with h | rfl
      · rcases mem_setAdd h with h | rfl
        · exact .inl h
        · exact .inr (by decide)
      · exact .inr (by decide)
    · rcases mem_setAdd h with h | rfl
      · exact .inl h
      · exact .inr (by decide)
  · exact .inl h

lemma nodup_stepMultiplayer {t : String} {s : List String} (h : s.Nodup) :
    (stepMultiplayer t s).Nodup := by
  unfold stepMultiplayer; split
  · split
    · exact nodup_setAdd (nodup_setAdd h _) _
    · exact nodup_setAdd h _
  · exact h

lemma mem_stepTwoPlayer {t y : String} {s : List String} (h : y ∈ s) :
    y ∈ stepTwoPlayer t s := by
  unfold stepTwoPlayer; split
  · exact mem_setAdd_of_mem h
  · exact h

lemma bound_stepTwoPlayer {t y : String} {s : List String}
    (h : y ∈ stepTwoPlayer t s) : y ∈ s ∨ y ∈ fixedLabels := by
  unfold stepTwoPlayer at h; split at h
  · exact (mem_setAdd h).imp_right (fun he => by subst he; decide)
  · exact .inl h

lemma nodup_stepTwoPlayer {t : String} {s : List String} (h : s.Nodup) :
    (stepTwoPlayer t s).Nodup := by
  unfold stepTwoPlayer; split
  · exact nodup_setAdd h _
  · exact h

lemma mem_stepAdventure {t y : String} {s : List String} (h : y ∈ s) :
    y ∈ stepAdventure t s := by
  unfold stepAdventure; split
  · exact mem_setAdd_of_mem h
  · exact h

lemma bound_stepAdventure {t y : String} {s : List String}
    (h : y ∈ stepAdventure t s) : y ∈ s ∨ y ∈ fixedLabels := by
  unfold stepAdventure at h; split at h
  · exact (mem_setAdd h).imp_right (fun he => by subst he; decide)
  · exact .inl h

lemma nodup_stepAdventure {t : String} {s : List String} (h : s.Nodup) :
    (stepAdventure t s).Nodup := by
  unfold stepAdventure; split
  · exact nodup_setAdd h _
  · exact h

lemma mem_stepSimulation {t y : String} {s : List String} (h : y ∈ s) :
    y ∈ stepSimulation t s := by
  unfold stepSimulation; split
  · exact mem_setAdd_of_mem h
  · exact h

lemma bound_stepSimulation {t y : String} {s : List String}
    (h : y ∈ stepSimulation t s) : y ∈ s ∨ y ∈ fixedLabels := by
  unfold stepSimulation at h; split at h
  · exact (mem_setAdd h).imp_right (fun he => by subst he; decide)
  · exact .inl h

lemma nodup_stepSimulation {t : String} {s : List String} (h : s.Nodup) :
    (stepSimulation t s).Nodup := by
  unfold stepSimulation; split
  · exact nodup_setAdd h _
  · exact h

lemma mem_stepClassic {t y : String} {s : List String} (h : y ∈ s) :
    y ∈ stepClassic t s := by
  unfold stepClassic; split
  · exact mem_setAdd_of_mem h
  · exact h

lemma bound_stepClassic {t y : String} {s : List String}
    (h : y ∈ stepClassic t s) : y ∈ s ∨ y ∈ fixedLabels := by
  unfold stepClassic at h; split at h
  · exact (mem_setAdd h).imp_right (fun he => by subst he; decide)
  · exact .inl h

lemma nodup_stepClassic {t : String} {s : List String} (h : s.Nodup) :
    (stepClassic t s).Nodup := by
  unfold stepClassic; split
  · exact nodup_setAdd h _
  · exact h

lemma mem_stepResolve {t y : String} {s : List String}
    (h : y ∈ s) (hne : y ≠ "multiplayer") : y ∈ stepResolve t s := by
  unfold stepResolve; split
  · split
    · exact mem_setDiscard_of_mem h hne
    · exact h
  · exact h

lemma mem_of_stepResolve {t y : String} {s : List String}
    (h : y ∈ stepResolve t s) : y ∈ s := by
  unfold stepResolve at h; split at h
  · split at h
    · exact mem_setDiscard h
    · exact h
  · exact h

lemma nodup_stepResolve {t : String} {s : List String} (h : s.Nodup) :
    (stepResolve t s).Nodup := by
  unfold stepResolve; split
  · split
    · exact nodup_setDiscard h _
    · exact h
  · exact h

lemma stepResolve_of_cond_false {t : String} {s : List String}
    (h : condResolve t = false) : stepResolve t s = s := by
  unfold stepResolve; split
  · simp [h]
  · rfl

lemma mem_stepFallback {y : String} {s : List String} (h : y ∈ s) :
    y ∈ stepFallback s := by
  unfold stepFallback; split
  · rename_i he; rw [he] at h; cases h
  · exact h

lemma mem_of_stepFallback {y : String} {s : List String}
    (h : y ∈ stepFallback s) : y ∈ s ∨ y = "arcade" := by
  unfold stepFallback at h; split at h
  · exact .inr (List.mem_singleton.1 h)
  · exact .inl h

lemma nodup_stepFallback {s : List String} (h : s.Nodup) :
    (stepFallback s).Nodup := by
  unfold stepFallback; split
  · exact List.nodup_singleton _
  · exact h

lemma stepFallback_ne_nil (s : List String) : stepFallback s ≠ [] := by
  unfold stepFallback; split
  · simp
  · assumption

/-! ### Lemmas about the whole pipeline -/

lemma mem_runRules {t y : String} {s : List String}
    (h : y ∈ s) (hsim : y ≠ "simulation") : y ∈ runRules t s := by
  unfold runRules
  exact mem_stepClassic (mem_stepSimulation (mem_stepAdventure (mem_stepTwoPlayer
    (mem_stepMultiplayer (mem_stepAI (mem_stepTower (mem_stepArcade (mem_stepCards
    (mem_stepPuzzle (mem_stepRacing (mem_stepTicTacToe
    (mem_stepConnectFour (mem_stepBoard h) hsim) hsim)))))))))))

lemma bound_runRules {t y : String} {s : List String}
    (h : y ∈ runRules t s) : y ∈ s ∨ y ∈ fixedLabels := by
  unfold runRules at h
  rcases bound_stepClassic h with h | h
  on_goal 2 => exact .inr h
  rcases bound_stepSimulation h with h | h
  on_goal 2 => exact .inr h
  rcases bound_stepAdventure h with h | h
  on_goal 2 => exact .inr h
  rcases bound_stepTwoPlayer h with h | h
  on_goal 2 => exact .inr h
  rcases bound_stepMultiplayer h with h | h
  on_goal 2 => exact .inr h
  rcases bound_stepAI h with h | h
  on_goal 2 => exact .inr h
  rcases bound_stepTower h with h | h
  on_goal 2 => exact .inr h
  rcases bound_stepArcade h with h | h
  on_goal 2 => exact .inr h
  rcases bound_stepCards h with h | h
  on_goal 2 => exact .inr h
  rcases bound_stepPuzzle h with h | h
  on_goal 2 => exact .inr h
  rcases bound_stepRacing h with h | h
  on_goal 2 => exact .inr h
  rcases bound_stepTicTacToe h with h | h
  on_goal 2 => exact .inr h
  rcases bound_stepConnectFour h with h | h
  on_goal 2 => exact .inr h
  rcases bound_stepBoard h with h | h
  on_goal 2 => exact .inr h
  exact .inl h

lemma nodup_runRules {t : String} {s : List String} (h : s.Nodup) :
    (runRules t s).Nodup := by
  unfold runRules
  exact nodup_stepClassic (nodup_stepSimulation (nodup_stepAdventure
    (nodup_stepTwoPlayer (nodup_stepMultiplayer (nodup_stepAI (nodup_stepTower
    (nodup_stepArcade (nodup_stepCards (nodup_stepPuzzle (nodup_stepRacing
    (nodup_stepTicTacToe (nodup_stepConnectFour (nodup_stepBoard h)))))))))))))

lemma nodup_categoriesFinal (title c : String) : (categoriesFinal title c).Nodup := by
  unfold categoriesFinal categoriesBeforeResolve
  exact nodup_stepFallback (nodup_stepResolve
    (nodup_runRules (nodup_stepSeed List.nodup_nil)))

lemma mem_final_bound {title c y : String}
    (h : y ∈ categoriesFinal title c) : y = c ∨ y ∈ fixedLabels := by
  unfold categoriesFinal categoriesBeforeResolve at h
  rcases mem_of_stepFallback h with h | rfl
  · rcases bound_runRules (mem_of_stepResolve h) with h | h
    · rcases mem_of_stepSeed h with h | rfl
      · cases h
      · exact .inl rfl
    · exact .inr h
  · exact .inr (by decide)

lemma seed_mem_final {title c : String}
    (h0 : c ≠ "") (h1 : c ≠ "simulation") (h2 : c ≠ "multiplayer") :
    c ∈ categoriesFinal title c := by
  unfold categoriesFinal categoriesBeforeResolve
  exact mem_stepFallback (mem_stepResolve (mem_runRules (self_mem_stepSeed h0) h1) h2)

/-! ### Lemmas about the final sorting -/

lemma mem_pySorted {y : String} {l : List String} : y ∈ pySorted l ↔ y ∈ l :=
  @List.mem_insertionSort String (fun a b => a ≤ b) strDecLE l y

lemma sorted_pySorted (l : List String) : List.Sorted (· ≤ ·) (pySorted l) :=
  @List.sorted_insertionSort String (fun a b => a ≤ b) strDecLE
    inferInstance inferInstance l

lemma nodup_pySorted {l : List String} (h : l.Nodup) : (pySorted l).Nodup :=
  (@List.perm_insertionSort String (fun a b => a ≤ b) strDecLE l).nodup_iff.2 h

lemma length_pySorted (l : List String) : (pySorted l).length = l.length :=
  @List.length_insertionSort String (fun a b => a ≤ b) strDecLE l

lemma mem_result_iff {title c g d y : String} :
    y ∈ get_game_categories title c g d ↔ y ∈ categoriesFinal title c :=
  mem_pySorted

/-! ### Rule-specific introduction lemmas -/

lemma adds_stepConnectFour {t : String} {s : List String}
    (h : condConnectFour t = true) :
    "puzzle" ∈ stepConnectFour t s ∧ "2-player" ∈ stepConnectFour t s ∧
      "strategy" ∈ stepConnectFour t s ∧ "simulation" ∉ stepConnectFour t s := by
  unfold stepConnectFour; rw [if_pos h]
  exact ⟨mem_setDiscard_of_mem (mem_setUpdate_of_mem_arg _ (by decide)) (by decide),
    mem_setDiscard_of_mem (mem_setUpdate_of_mem_arg _ (by decide)) (by decide),
    mem_setDiscard_of_mem (mem_setUpdate_of_mem_arg _ (by decide)) (by decide),
    not_mem_setDiscard _ _⟩

lemma two_mem_stepTicTacToe {t : String} {s : List String}
    (h : condTicTacToe t = true) : "2-player" ∈ stepTicTacToe t s := by
  unfold stepTicTacToe; rw [if_pos h]
  exact mem_setDiscard_of_mem (mem_setUpdate_of_mem_arg _ (by decide)) (by decide)

lemma mult_mem_stepMultiplayer {t : String} {s : List String}
    (h : condMultiplayer t = true) : "multiplayer" ∈ stepMultiplayer t s := by
  unfold stepMultiplayer; rw [if_pos h]
  split
  · exact mem_setAdd_of_mem (self_mem_setAdd s _)
  · exact self_mem_setAdd s _

lemma condMultiplayer_of_multi {t : String} (h : strContains t "multi" = true) :
    condMultiplayer t = true := by
  simp [condMultiplayer, containsAny, h]

lemma four_mem_stepMultiplayer {t : String} {s : List String}
    (h : strContains t "multi" = true) : "4-player" ∈ stepMultiplayer t s := by
  unfold stepMultiplayer
  rw [if_pos (condMultiplayer_of_multi h), if_pos h]
  exact self_mem_setAdd _ _

/-- All fourteen keyword-rule guards are false for the lowered title `t`
("no keyword rule fires"). -/
def noRuleFires (t : String) : Prop :=
  condBoard t = false ∧ condConnectFour t = false ∧ condTicTacToe t = false ∧
  condRacing t = false ∧ condPuzzle t = false ∧ condCards t = false ∧
  condArcade t = false ∧ condTower t = false ∧ condAI t = false ∧
  condMultiplayer t = false ∧ condTwoPlayer t = false ∧ condAdventure t = false ∧
  condSimulation t = false ∧ condClassic t = false

/-! ### The claims -/

/-- C1: for every input the returned sequence has length at least one,
and when no keyword rule fires and `current_category` is empty the
result is exactly the singleton `["arcade"]`. -/
theorem c1_nonempty_and_fallback (title c g d : String) :
    1 ≤ (get_game_categories title c g d).length ∧
    (noRuleFires (pyLower title) → c = "" →
      get_game_categories title c g d = ["arcade"]) := by
  constructor
  · have hne : categoriesFinal title c ≠ [] := stepFallback_ne_nil _
    have hl : (get_game_categories title c g d).length =
        (categoriesFinal title c).length := length_pySorted _
    rw [hl]
    exact Nat.succ_le_of_lt (List.length_pos.2 hne)
  · rintro ⟨h1, h2, h3, h4, h5, h6, h7, h8, h9, h10, h11, h12, h13, h14⟩ rfl
    unfold get_game_categories categoriesFinal categoriesBeforeResolve runRules
    unfold stepSeed stepBoard stepConnectFour stepTicTacToe stepRacing stepPuzzle
      stepCards stepArcade stepTower stepAI stepMultiplayer stepTwoPlayer
      stepAdventure stepSimulation stepClassic stepResolve stepFallback
    simp [h1, h2, h3, h4, h5, h6, h7, h8, h9, h10, h11, h12, h13, h14]
    rfl

/-- Witness for C1, at the unclassifiable title `"Untitled Widget"`. -/
theorem c1_nonempty_and_fallback_witness :
    noRuleFires (pyLower "Untitled Widget") ∧
    get_game_categories "Untitled Widget" "" "" "" = ["arcade"] :=
  ⟨by unfold noRuleFires; decide,
    (c1_nonempty_and_fallback "Untitled Widget" "" "" "").2
      (by unfold noRuleFires; decide) rfl⟩

/-- C2: the returned sequence is strictly ascending in the lexicographic
string order and contains no duplicate labels. -/
theorem c2_sorted_and_nodup (title c g d : String) :
    List.Sorted (· < ·) (get_game_categories title c g d) ∧
    (get_game_categories title c g d).Nodup := by
  have hn : (get_game_categories title c g d).Nodup :=
    nodup_pySorted (nodup_categoriesFinal title c)
  exact ⟨(sorted_pySorted (categoriesFinal title c)).lt_of_le hn, hn⟩

/-- C3: for title `"Network Chess Battle"` and empty seed, `multiplayer`
is in the working set after the keyword rules but is removed by the
contradiction-resolution step, so the result excludes `multiplayer` and
contains `2-player`, `classic` and `strategy`. -/
theorem c3_network_chess_battle :
    "multiplayer" ∈ categoriesBeforeResolve "Network Chess Battle" "" ∧
    "multiplayer" ∉ get_game_categories "Network Chess Battle" "" "" "" ∧
    "2-player" ∈ get_game_categories "Network Chess Battle" "" "" "" ∧
    "classic" ∈ get_game_categories "Network Chess Battle" "" "" "" ∧
    "strategy" ∈ get_game_categories "Network Chess Battle" "" "" "" := by
  decide

/-- C4: whenever the lowered title contains `connect four` or
`connect-four`, the Connect-Four rule adds `puzzle`, `2-player` and
`strategy` to the working set and removes `simulation`; in particular
for `"Connect Four Challenge"` seeded with `simulation` the result
drops `simulation` and contains `2-player`, `puzzle` and `strategy`. -/
theorem c4_connect_four_rule (t : String) (s : List String)
    (h : condConnectFour t = true) :
    ("puzzle" ∈ stepConnectFour t s ∧ "2-player" ∈ stepConnectFour t s ∧
      "strategy" ∈ stepConnectFour t s ∧ "simulation" ∉ stepConnectFour t s) ∧
    ("simulation" ∉ get_game_categories "Connect Four Challenge" "simulation" "" "" ∧
      "2-player" ∈ get_game_categories "Connect Four Challenge" "simulation" "" "" ∧
      "puzzle" ∈ get_game_categories "Connect Four Challenge" "simulation" "" "" ∧
      "strategy" ∈ get_game_categories "Connect Four Challenge" "simulation" "" "") :=
  ⟨adds_stepConnectFour h, by decide⟩

/-- Witness for C4, at the lowered title `"connect four challenge"` and
the seeded working set `["simulation"]`. -/
theorem c4_connect_four_rule_witness :
    condConnectFour (pyLower "Connect Four Challenge") = true ∧
    "puzzle" ∈ stepConnectFour (pyLower "Connect Four Challenge") ["simulation"] :=
  ⟨by decide,
    ((c4_connect_four_rule (pyLower "Connect Four Challenge") ["simulation"]
      (by decide)).1).1⟩

/-- C5: the `ai-exclusive` branch of the AI-themed rule only re-adds a label
that is already present, so `ai-exclusive` appears in the output if and
only if `current_category` equals `ai-exclusive`. -/
theorem c5_ai_exclusive_inert (title c g d : String) :
    (∀ t : String, ∀ s : List String,
        "ai-exclusive" ∈ stepAI t s → "ai-exclusive" ∈ s) ∧
    ("ai-exclusive" ∈ get_game_categories title c g d ↔ c = "ai-exclusive") := by
  constructor
  · intro t s h
    rcases mem_of_stepAI h with h | h
    · exact h
    · exact absurd h (by decide)
  · constructor
    · intro h
      rcases mem_final_bound (mem_result_iff.1 h) with h | h
      · exact h.symm
      · exact absurd h (by decide)
    · rintro rfl
      exact mem_result_iff.2 (seed_mem_final (by decide) (by decide) (by decide))

/-- Witness for C5: seeding with `ai-exclusive` puts it in the output. -/
theorem c5_ai_exclusive_inert_witness :
    "ai-exclusive" ∈ get_game_categories "Zebra Farm" "ai-exclusive" "" "" :=
  (c5_ai_exclusive_inert "Zebra Farm" "ai-exclusive" "" "").2.mpr rfl

/-- C6: a non-empty `current_category` other than `simulation` and
`multiplayer` (the only labels any rule ever removes) appears in the
returned sequence. -/
theorem c6_seed_inclusion (title c g d : String)
    (h0 : c ≠ "") (h1 : c ≠ "simulation") (h2 : c ≠ "multiplayer") :
    c ∈ get_game_categories title c g d :=
  mem_result_iff.2 (seed_mem_final h0 h1 h2)

/-- Witness for C6, with seed `"racing"` and a title firing no rule. -/
theorem c6_seed_inclusion_witness :
    ("racing" : String) ≠ "" ∧ ("racing" : String) ≠ "simulation" ∧
    ("racing" : String) ≠ "multiplayer" ∧
    "racing" ∈ get_game_categories "Untitled Widget" "racing" "" "" :=
  ⟨by decide, by decide, by decide,
    c6_seed_inclusion "Untitled Widget" "racing" "" ""
      (by decide) (by decide) (by decide)⟩

/-- C7: `genre` and `description` never influence the result. -/
theorem c7_genre_description_unused (title c g1 d1 g2 d2 : String) :
    get_game_categories title c g1 d1 = get_game_categories title c g2 d2 := rfl

/-- C8: a multiplayer keyword adds `multiplayer` to the working set, the
keyword `multi` additionally adds `4-player`, and since no later step
removes `4-player` every title containing `multi` yields a result
containing `4-player`. -/
theorem c8_multi_four_player (title c g d : String) :
    (∀ t : String, ∀ s : List String, condMultiplayer t = true →
        "multiplayer" ∈ stepMultiplayer t s) ∧
    (∀ t : String, ∀ s : List String, strContains t "multi" = true →
        "4-player" ∈ stepMultiplayer t s) ∧
    (strContains (pyLower title) "multi" = true →
      "4-player" ∈ get_game_categories title c g d) := by
  refine ⟨fun t s h => mult_mem_stepMultiplayer h,
    fun t s h => four_mem_stepMultiplayer h, fun h => ?_⟩
  apply mem_result_iff.2
  unfold categoriesFinal categoriesBeforeResolve runRules
  exact mem_stepFallback (mem_stepResolve (mem_stepClassic (mem_stepSimulation
    (mem_stepAdventure (mem_stepTwoPlayer (four_mem_stepMultiplayer h)))))
    (by decide))

/-- Witness for C8, at the title `"Multi Maze Madness"`. -/
theorem c8_multi_four_player_witness :
    "4-player" ∈ get_game_categories "Multi Maze Madness" "" "" "" :=
  (c8_multi_four_player "Multi Maze Madness" "" "" "").2.2 (by decide)

/-- C9: every label of the returned sequence is the seed
`current_category` or one of the eleven fixed labels the rules can
introduce. -/
theorem c9_output_vocabulary (title c g d : String) :
    ∀ y ∈ get_game_categories title c g d, y = c ∨ y ∈ fixedLabels :=
  fun _ hy => mem_final_bound (mem_result_iff.1 hy)

/-- Witness for C9, at the label `"strategy"` of `"Chess Master"`. -/
theorem c9_output_vocabulary_witness :
    ("strategy" : String) = "" ∨ ("strategy" : String) ∈ fixedLabels :=
  c9_output_vocabulary "Chess Master" "" "" "" "strategy" (by decide)

/-- C10: a title containing `tic`, `tac` and `toe` as separate
substrings plus a multiplayer keyword, but none of the contiguous
phrases checked by the contradiction-resolution step, keeps both
`2-player` and `multiplayer` in the result. -/
theorem c10_tictactoe_resolution_gap (title c g d : String)
    (h1 : strContains (pyLower title) "tic" = true)
    (h2 : strContains (pyLower title) "tac" = true)
    (h3 : strContains (pyLower title) "toe" = true)
    (h4 : condMultiplayer (pyLower title) = true)
    (h5 : condResolve (pyLower title) = false) :
    "2-player" ∈ get_game_categories title c g d ∧
    "multiplayer" ∈ get_game_categories title c g d := by
  have hT : condTicTacToe (pyLower title) = true := by
    simp [condTicTacToe, h1, h2, h3]
  constructor
  · apply mem_result_iff.2
    unfold categoriesFinal categoriesBeforeResolve runRules
    refine mem_stepFallback (mem_stepResolve ?_ (by decide))
    exact mem_stepClassic (mem_stepSimulation (mem_stepAdventure (mem_stepTwoPlayer
      (mem_stepMultiplayer (mem_stepAI (mem_stepTower (mem_stepArcade (mem_stepCards
      (mem_stepPuzzle (mem_stepRacing (two_mem_stepTicTacToe hT)))))))))))
  · apply mem_result_iff.2
    unfold categoriesFinal categoriesBeforeResolve runRules
    rw [stepResolve_of_cond_false h5]
    exact mem_stepFallback (mem_stepClassic (mem_stepSimulation (mem_stepAdventure
      (mem_stepTwoPlayer (mult_mem_stepMultiplayer h4)))))

/-- Witness for C10, at the title `"Tictactoe Battle"`. -/
theorem c10_tictactoe_resolution_gap_witness :
    "2-player" ∈ get_game_categories "Tictactoe Battle" "" "" "" ∧
    "multiplayer" ∈ get_game_categories "Tictactoe Battle" "" "" "" :=
  c10_tictactoe_resolution_gap "Tictactoe Battle" "" "" ""
    (by decide) (by decide) (by decide) (by decide) (by decide)

end CategorizeGames
